import Mathlib

/-!
Verification of the realtime-client session/event layer of this repository.

The Python sources are shallowly embedded: JSON payloads become a flat record
of exactly the fields the client reads (`InMsg`), thread-shared attributes
become explicit state records, and the poll-until-timeout loops become
structural recursion over the list of messages that arrive (in delivery
order) before the timeout elapses.  `None` / missing JSON keys are `Option`,
and Python truthiness on strings is the explicit `truthy`.
-/

namespace OART

/-- One entry of a JSON "content" array, with the four keys the client reads
(`type`, `transcript`, `audio`, `format`). -/
structure ContentItem where
  type : Option String
  transcript : Option String
  audio : Option String
  format : Option String
deriving DecidableEq

/-- The nested "item" object of an inbound message: the client reads
`item.get("id")` and `item.get("content", [])`. -/
structure ItemObj where
  id : Option String
  content : List ContentItem
deriving DecidableEq

/-- A decoded inbound JSON message, flattened to the fields the client code
accesses: `type`, `event_id`, `item_id`, `session.id` (as `session_id`),
`item`, `delta`, `transcript`, `content_index`, `output_index`. -/
structure InMsg where
  type : Option String
  event_id : Option String
  item_id : Option String
  session_id : Option String
  item : Option ItemObj
  delta : Option String
  transcript : Option String
  content_index : Option Nat
  output_index : Option Nat
deriving DecidableEq

/-- An inbound message all of whose fields are absent; concrete messages are
built by record update from it. -/
def emptyMsg : InMsg :=
  { type := none, event_id := none, item_id := none, session_id := none,
    item := none, delta := none, transcript := none,
    content_index := none, output_index := none }

/-- Python truthiness of an optional string: `None` and `""` are falsy. -/
def truthy (o : Option String) : Bool :=
  match o with
  | some s => s != ""
  | none => false

/-- Python `a or b` on two optional strings: the first operand when it is
truthy, otherwise the second operand. -/
def pyOr (a b : Option String) : Option String :=
  if truthy a then a else b

/-! ## ArtifactAssembler: ordering of audio-delta chunks
Embeds the reassembly portion of `send_response_create_and_validate`
(`openai_client.py` lines 991-1013): each delta message is reduced to its
`(content_index, output_index, delta)` triple (missing indices default to 0,
missing delta to ""), the triples are sorted by the `(content_index,
output_index)` key, and the `delta` strings are concatenated in that order. -/

/-- The ordering triple built for each audio-delta message. -/
structure Chunk where
  content_index : Nat
  output_index : Nat
  delta : String
deriving DecidableEq

/-- The sort key `(content_index, output_index)`. -/
def chunkKey (c : Chunk) : Nat × Nat :=
  (c.content_index, c.output_index)

/-- The comparison used by the Python sort: lexicographic on the tuple
`(content_index, output_index)`. -/
def keyLe (a b : Chunk) : Prop :=
  a.content_index < b.content_index ∨
    (a.content_index = b.content_index ∧ a.output_index ≤ b.output_index)

instance : DecidableRel keyLe := fun a b => by
  unfold keyLe; exact inferInstance

instance : IsTotal Chunk keyLe :=
  ⟨by intro a b; unfold keyLe; omega⟩

instance : IsTrans Chunk keyLe :=
  ⟨by intro a b c; unfold keyLe; omega⟩

/-- Extraction of ordering triples from the delta messages, as the code's
`for delta_msg in responses["response.audio.delta"]` loop does. -/
def orderedDeltas (msgs : List InMsg) : List Chunk :=
  msgs.map fun m =>
    { content_index := m.content_index.getD 0,
      output_index := m.output_index.getD 0,
      delta := (m.delta.getD "") }

/-- `ordered_deltas.sort(key=...)` followed by the concatenation loop:
sort by `(content_index, output_index)`, then concatenate the deltas. -/
def assembleDeltas (chunks : List Chunk) : String :=
  String.join ((List.insertionSort keyLe chunks).map Chunk.delta)

theorem keyLe_total_chunk (a b : Chunk) : keyLe a b ∨ keyLe b a := by
  unfold keyLe; omega

theorem keyLe_antisymm_key {a b : Chunk} (h1 : keyLe a b) (h2 : keyLe b a) :
    chunkKey a = chunkKey b := by
  unfold keyLe at h1 h2
  unfold chunkKey
  have hc : a.content_index = b.content_index := by omega
  have ho : a.output_index = b.output_index := by omega
  rw [hc, ho]

/-- Two sorted lists of chunks that are permutations of each other and have
pairwise-distinct keys are equal. -/
theorem sorted_perm_distinct_eq :
    ∀ {l1 l2 : List Chunk}, l1.Perm l2 → l1.Sorted keyLe → l2.Sorted keyLe →
      l1.Pairwise (fun a b => chunkKey a ≠ chunkKey b) → l1 = l2 := by
  intro l1
  induction l1 with
  | nil =>
    intro l2 hperm _ _ _
    exact (List.Perm.nil_eq hperm).symm ▸ rfl
  | cons a t1 ih =>
    intro l2 hperm hs1 hs2 hd
    cases l2 with
    | nil => exact absurd hperm.symm (by simp)
    | cons b t2 =>
      have hab : a = b := by
        by_contra hne
        have hbmem : b ∈ a :: t1 := hperm.symm.mem_iff.mp (List.mem_cons_self b t2)
        have hamem : a ∈ b :: t2 := hperm.mem_iff.mp (List.mem_cons_self a t1)
        have hb1 : b ∈ t1 := by
          rcases List.mem_cons.mp hbmem with h | h
          · exact absurd h.symm hne
          · exact h
        have ha2 : a ∈ t2 := by
          rcases List.mem_cons.mp hamem with h | h
          · exact absurd h hne
          · exact h
        have h1 : keyLe a b := List.rel_of_sorted_cons hs1 b hb1
        have h2 : keyLe b a := List.rel_of_sorted_cons hs2 a ha2
        have hkeq : chunkKey a = chunkKey b := keyLe_antisymm_key h1 h2
        have hneq : chunkKey a ≠ chunkKey b := (List.pairwise_cons.mp hd).1 b hb1
        exact hneq hkeq
      subst hab
      have hperm' : t1.Perm t2 := hperm.cons_inv
      have := ih hperm' (List.sorted_cons.mp hs1).2 (List.sorted_cons.mp hs2).2
        (List.pairwise_cons.mp hd).2
      rw [this]

/-- Distinct-key pairwise condition transfers along permutations. -/
theorem pairwise_distinct_of_perm {l1 l2 : List Chunk}
    (hperm : l1.Perm l2)
    (hd : l1.Pairwise (fun a b => chunkKey a ≠ chunkKey b)) :
    l2.Pairwise (fun a b => chunkKey a ≠ chunkKey b) :=
  (List.Perm.pairwise_iff (fun h he => h he.symm) hperm).mp hd

/-- C1. For chunks with pairwise-distinct `(content_index, output_index)`
keys, assembling any arrival-order permutation yields the concatenation of
the deltas in ascending key order, so the artifact is arrival-order
independent. -/
theorem c1_assemble_order_independent (l arrival : List Chunk)
    (hperm : arrival.Perm l)
    (hdist : l.Pairwise (fun a b => chunkKey a ≠ chunkKey b)) :
    assembleDeltas arrival =
      String.join ((List.insertionSort keyLe l).map Chunk.delta) ∧
    (List.insertionSort keyLe l).Sorted keyLe := by
  constructor
  · unfold assembleDeltas
    congr 1
    congr 1
    apply sorted_perm_distinct_eq
    · exact (List.perm_insertionSort keyLe arrival).trans
        (hperm.trans (List.perm_insertionSort keyLe l).symm)
    · exact List.sorted_insertionSort keyLe arrival
    · exact List.sorted_insertionSort keyLe l
    · exact pairwise_distinct_of_perm
        ((List.perm_insertionSort keyLe arrival).trans hperm).symm hdist
  · exact List.sorted_insertionSort keyLe l

/-- C1 witness: the spec's own test vector, chunks `[(1,0,"B"), (0,0,"A")]`
arriving out of order assemble to `"AB"`. -/
theorem c1_witness :
    assembleDeltas [⟨1, 0, "B"⟩, ⟨0, 0, "A"⟩] =
      String.join ((List.insertionSort keyLe [⟨0, 0, "A"⟩, ⟨1, 0, "B"⟩]).map Chunk.delta) ∧
    (List.insertionSort keyLe [⟨0, 0, "A"⟩, ⟨1, 0, "B"⟩]).Sorted keyLe :=
  c1_assemble_order_independent [⟨0, 0, "A"⟩, ⟨1, 0, "B"⟩] [⟨1, 0, "B"⟩, ⟨0, 0, "A"⟩]
    (by decide) (by decide)

/-! ## WebSocketManager (`websockect_manager.py`)
State shared between the receive thread and the waiting caller: the single
`latest_received_message` slot.  Anomalies printed by the handler are modelled
as an explicit log list.  An inbound frame is represented by its JSON decode
result: `none` for text that is not JSON-decodable (the caught
`json.JSONDecodeError` path), `some d` otherwise. -/

/-- The manager's correlator state: the single latest-message slot plus the
log of printed anomalies. -/
structure WMState where
  latest_received_message : Option InMsg
  log : List String
deriving DecidableEq

/-- `WebSocketManager.on_message` (lines 28-46), with `message_callback`
unset (its default): a decodable message overwrites the single slot; a
non-decodable one is dropped with a logged anomaly. -/
def wm_on_message (st : WMState) (raw : Option InMsg) : WMState :=
  match raw with
  | none => { st with log := st.log ++ ["json_decode_error"] }
  | some d => { st with latest_received_message := some d }

/-- `WebSocketManager.wait_for_message_type` (lines 154-174) under no further
arrivals during the wait: the poll loop either consumes the current latest
message when its type matches, or spins until the timeout and returns the
`None` outcome, leaving a non-matching latest message in place. -/
def wait_for_message_type (st : WMState) (expected : String) :
    Option InMsg × WMState :=
  match st.latest_received_message with
  | some m =>
    if m.type == some expected then
      (some m, { st with latest_received_message := none })
    else (none, st)
  | none => (none, st)

/-- The five-message burst of the spec's regression test: five messages of
one type, distinguished by their event ids. -/
def burstMsgs : List InMsg :=
  ["e1", "e2", "e3", "e4", "e5"].map fun e =>
    { emptyMsg with type := some "response.audio.delta", event_id := some e }

/-- C2. Evaluating the single-slot correlator at the claim's failing input:
after the five burst messages are recorded, the first wait retrieves only the
fifth message and a subsequent wait retrieves nothing, so the first four
recorded messages are lost rather than retrievable. -/
theorem c2_single_slot_burst_loses_messages :
    (wait_for_message_type
        (burstMsgs.foldl (fun s m => wm_on_message s (some m)) ⟨none, []⟩)
        "response.audio.delta").1 =
      some { emptyMsg with type := some "response.audio.delta",
                           event_id := some "e5" } ∧
    (wait_for_message_type
        (wait_for_message_type
            (burstMsgs.foldl (fun s m => wm_on_message s (some m)) ⟨none, []⟩)
            "response.audio.delta").2
        "response.audio.delta").1 = none := by
  decide

/-! ## OpenAIRealtimeClient message handler and session update
(`openai_client.py`).  The shared attributes of the client become an explicit
state record; `print` warnings become entries of `warnings`. -/

/-- The client attributes read and written by `on_message` and
`send_session_update_and_wait_for_updated`. -/
structure ClientState where
  is_connected : Bool
  global_event_id : Option String
  global_session_id : Option String
  latest_received_message : Option InMsg
  session_created_event : Bool
  session_updated_event : Bool
  warnings : List String
deriving DecidableEq

/-- `OpenAIRealtimeClient.on_message` (lines 50-121).  `raw = none` is the
caught `json.JSONDecodeError` path.  A decoded message is first stored in the
latest-message slot; `session.created` captures `event_id` and `session.id`
(when truthy) and sets the created event; `session.updated` logs a
warning-level anomaly when a truthy stored session id differs from a truthy
incoming one, adopts the incoming id, and sets the updated event; other types
are left in the slot unprocessed. -/
def client_on_message (st : ClientState) (raw : Option InMsg) : ClientState :=
  match raw with
  | none => { st with warnings := st.warnings ++ ["json_decode_error"] }
  | some data =>
    let st1 := { st with latest_received_message := some data }
    if data.type == some "session.created" then
      let st2 := if truthy data.event_id then
          { st1 with global_event_id := data.event_id } else st1
      let st3 := if truthy data.session_id then
          { st2 with global_session_id := data.session_id } else st2
      { st3 with session_created_event := true }
    else if data.type == some "session.updated" then
      let warned := truthy data.session_id && truthy st1.global_session_id &&
        (st1.global_session_id != data.session_id)
      let st2 := if warned then
          { st1 with warnings := st1.warnings ++ ["session_id_mismatch"] }
        else st1
      let st3 := if truthy data.session_id then
          { st2 with global_session_id := data.session_id } else st2
      { st3 with session_updated_event := true }
    else st1

/-- The outcome of `send_session_update_and_wait_for_updated` (lines 200-241)
after the update request has been sent, as a function of the state once the
wait finishes: `none` when not connected or when the updated event never
arrived (timeout), otherwise the `event_id` of the latest received message
when that id is truthy. -/
def session_update_outcome (st : ClientState) : Option String :=
  if !st.is_connected then none
  else if !st.session_updated_event then none
  else
    match st.latest_received_message with
    | some m => if truthy m.event_id then m.event_id else none
    | none => none

/-- C7. With a stored session id `s1`, handling a `session.updated` message
carrying session id `s2` logs a warning anomaly exactly when `s2 ≠ s1`, and
in both cases sets the updated event so that the configuration update still
reports success (returning the echoed event id). -/
theorem c7_session_id_stability (st : ClientState) (s1 s2 e : String)
    (m : InMsg)
    (hconn : st.is_connected = true)
    (hstored : st.global_session_id = some s1) (hs1 : s1 ≠ "")
    (htype : m.type = some "session.updated")
    (hsid : m.session_id = some s2) (hs2 : s2 ≠ "")
    (heid : m.event_id = some e) (he : e ≠ "") :
    (s2 ≠ s1 →
      (client_on_message st (some m)).warnings =
        st.warnings ++ ["session_id_mismatch"] ∧
      session_update_outcome (client_on_message st (some m)) = some e) ∧
    (s2 = s1 →
      (client_on_message st (some m)).warnings = st.warnings ∧
      session_update_outcome (client_on_message st (some m)) = some e) := by
  constructor
  · intro hneq
    simp [client_on_message, htype, hstored, hsid, heid, truthy, hs1, hs2,
      he, session_update_outcome, hconn, Ne.symm hneq]
  · intro heq
    subst heq
    simp [client_on_message, htype, hstored, hsid, heid, truthy, hs1, hs2,
      he, session_update_outcome, hconn]

/-- C7 witness: a concrete state with stored id "s1" receiving
`session.updated` with id "s2" logs the mismatch warning and the update still
returns the echoed event id "e2". -/
theorem c7_witness :
    (client_on_message
        ⟨true, some "e1", some "s1", none, true, false, []⟩
        (some { emptyMsg with type := some "session.updated",
                              session_id := some "s2",
                              event_id := some "e2" })).warnings =
      [] ++ ["session_id_mismatch"] ∧
    session_update_outcome
      (client_on_message
        ⟨true, some "e1", some "s1", none, true, false, []⟩
        (some { emptyMsg with type := some "session.updated",
                              session_id := some "s2",
                              event_id := some "e2" })) = some "e2" :=
  (c7_session_id_stability
    ⟨true, some "e1", some "s1", none, true, false, []⟩ "s1" "s2" "e2"
    { emptyMsg with type := some "session.updated",
                    session_id := some "s2", event_id := some "e2" }
    rfl rfl (by decide) rfl rfl (by decide) rfl (by decide)).1 (by decide)

/-- C8. A non-JSON-decodable inbound frame is dropped with a logged anomaly
and nothing else changes: in both message handlers the latest-message slot,
the captured ids, and the synchronization events are untouched, and the
handler returns normally (it is a total function of the state). -/
theorem c8_malformed_json_dropped (cst : ClientState) (wst : WMState) :
    (client_on_message cst none).latest_received_message =
      cst.latest_received_message ∧
    (client_on_message cst none).global_event_id = cst.global_event_id ∧
    (client_on_message cst none).global_session_id = cst.global_session_id ∧
    (client_on_message cst none).session_created_event =
      cst.session_created_event ∧
    (client_on_message cst none).session_updated_event =
      cst.session_updated_event ∧
    (client_on_message cst none).warnings =
      cst.warnings ++ ["json_decode_error"] ∧
    (wm_on_message wst none).latest_received_message =
      wst.latest_received_message ∧
    (wm_on_message wst none).log = wst.log ++ ["json_decode_error"] := by
  refine ⟨rfl, rfl, rfl, rfl, rfl, rfl, rfl, rfl⟩

/-! ## Item retrieve (`send_conversation_item_retrieve_and_validate`,
`openai_client.py` lines 547-646).  The poll loop is embedded as recursion
over the successive contents of the latest-message slot before the timeout:
each arrival is consumed, a non-matching type is skipped, and the first
`conversation.item.retrieved` message is validated. -/

/-- The dictionary returned on a successful retrieve. -/
structure RetrieveResult where
  event_id : String
  item_id : String
  transcript : Option String
  has_audio : Bool
  audio_format : Option String
deriving DecidableEq

/-- The content scan of the retrieve handler: the first content entry whose
`type` is "input_audio" (the loop breaks at the first hit). -/
def findInputAudio : List ContentItem → Option ContentItem
  | [] => none
  | c :: rest =>
    if c.type == some "input_audio" then some c else findInputAudio rest

/-- The wait-and-validate loop of the retrieve operation. -/
def retrieve_loop (item_id : String) : List InMsg → Option RetrieveResult
  | [] => none
  | m :: rest =>
    if m.type == some "conversation.item.retrieved" then
      if !truthy m.event_id then none
      else
        let rid := m.item.bind ItemObj.id
        if !truthy rid then none
        else if rid == some item_id then
          let content := (m.item.map ItemObj.content).getD []
          let found := findInputAudio content
          some { event_id := m.event_id.getD "",
                 item_id := rid.getD "",
                 transcript := found.bind ContentItem.transcript,
                 has_audio := (found.bind ContentItem.audio).isSome,
                 audio_format := found.bind ContentItem.format }
        else none
    else retrieve_loop item_id rest

/-- `send_conversation_item_retrieve_and_validate`: fails when not connected,
otherwise runs the wait-and-validate loop over the arrivals seen before the
timeout. -/
def send_conversation_item_retrieve_and_validate (connected : Bool)
    (item_id : String) (arrivals : List InMsg) : Option RetrieveResult :=
  if !connected then none else retrieve_loop item_id arrivals

/-- C3. If the first `conversation.item.retrieved` arrival echoes an item id
different from the requested one, the retrieve operation returns the failure
outcome `none` — in particular none of that item's transcript or audio data
reaches the caller. -/
theorem c3_item_id_mismatch_fails (reqId respId : String)
    (pre post : List InMsg) (m : InMsg)
    (hpre : ∀ x ∈ pre, x.type ≠ some "conversation.item.retrieved")
    (htype : m.type = some "conversation.item.retrieved")
    (hrid : m.item.bind ItemObj.id = some respId)
    (hne : respId ≠ reqId) :
    send_conversation_item_retrieve_and_validate true reqId
      (pre ++ m :: post) = none := by
  have hloop : ∀ pre2 : List InMsg,
      (∀ x ∈ pre2, x.type ≠ some "conversation.item.retrieved") →
      retrieve_loop reqId (pre2 ++ m :: post) = none := by
    intro pre2
    induction pre2 with
    | nil =>
      intro _
      simp only [List.nil_append, retrieve_loop, htype, hrid]
      by_cases hev : truthy m.event_id
      · by_cases hr : truthy (some respId)
        · simp [hev, hr, hne]
        · simp [hev, hr]
      · simp [hev]
    | cons p rest ih =>
      intro hpre2
      have hp : p.type ≠ some "conversation.item.retrieved" :=
        hpre2 p (List.mem_cons_self p rest)
      have hpb : (p.type == some "conversation.item.retrieved") = false := by
        simp [hp]
      simp only [List.cons_append, retrieve_loop, hpb, Bool.false_eq_true,
        if_false]
      exact ih fun x hx => hpre2 x (List.mem_cons_of_mem p hx)
  exact hloop pre hpre

/-- C3 witness: requesting item "A" and receiving a retrieved response whose
item carries id "B" yields the failure outcome. -/
theorem c3_witness :
    send_conversation_item_retrieve_and_validate true "A"
      [{ emptyMsg with type := some "conversation.item.retrieved",
                       event_id := some "e9",
                       item := some { id := some "B", content := [] } }] =
      none :=
  c3_item_id_mismatch_fails "A" "B" []
    [] { emptyMsg with type := some "conversation.item.retrieved",
                       event_id := some "e9",
                       item := some { id := some "B", content := [] } }
    (by intro x hx; cases hx) rfl rfl (by decide)

/-! ## Buffer commit (`send_audio_buffer_commit_and_validate`,
`openai_client.py` lines 402-483).  The loop collects one response entry per
required terminal type until all four distinct types have been observed or
the timeout elapses (the arrival list is exhausted).  The `received_types`
set of the code always equals the set of populated entries, so it is
represented by the count of populated entries. -/

/-- One per-type entry of the `responses` dictionary: the code stores the
keys `event_id`, `item_id`, `type`, and (for some types) `transcript`. -/
structure RespEntry where
  event_id : Option String
  item_id : Option String
  type : String
  transcript : Option String
deriving DecidableEq

/-- The four-entry `responses` dictionary; an entry is `none` while its
dictionary is still the initial empty `{}`. -/
structure CommitResponses where
  committed : Option RespEntry
  created : Option RespEntry
  delta : Option RespEntry
  completed : Option RespEntry
deriving DecidableEq

/-- Loop state: the responses collected so far plus the running transcript
accumulated from delta events. -/
structure CommitState where
  responses : CommitResponses
  transcript : String
deriving DecidableEq

/-- The initial commit loop state: four empty entries, empty transcript. -/
def commitInit : CommitState :=
  ⟨⟨none, none, none, none⟩, ""⟩

/-- Number of populated entries; this equals `len(received_types)` in the
code, since a type is added to `received_types` exactly when its entry is
populated. -/
def receivedCount (r : CommitResponses) : Nat :=
  (if r.committed.isSome then 1 else 0) + (if r.created.isSome then 1 else 0) +
    (if r.delta.isSome then 1 else 0) + (if r.completed.isSome then 1 else 0)

/-- `item_id` as the commit handler extracts it:
`msg.get("item_id") or msg.get("item", {}).get("id")`. -/
def commitItemId (m : InMsg) : Option String :=
  pyOr m.item_id (m.item.bind ItemObj.id)

/-- Processing of one message inside the commit loop (lines 441-471):
a required-type message populates its entry; a delta appends its truthy
`delta` to the running transcript and records the accumulation; a completed
message records the message's own `transcript` field; the created message
records the first content entry's transcript when the content list is
non-empty; unhandled types are skipped. -/
def commit_step (st : CommitState) (m : InMsg) : CommitState :=
  if m.type == some "input_audio_buffer.committed" then
    let entry : RespEntry :=
      { event_id := m.event_id, item_id := commitItemId m,
        type := "input_audio_buffer.committed", transcript := none }
    { st with responses := { st.responses with committed := some entry } }
  else if m.type == some "conversation.item.created" then
    let content := (m.item.map ItemObj.content).getD []
    let entry : RespEntry :=
      { event_id := m.event_id, item_id := commitItemId m,
        type := "conversation.item.created",
        transcript := (content.head?).bind ContentItem.transcript }
    { st with responses := { st.responses with created := some entry } }
  else if m.type == some "conversation.item.input_audio_transcription.delta" then
    let newTranscript :=
      if truthy m.delta then st.transcript ++ m.delta.getD "" else st.transcript
    let entry : RespEntry :=
      { event_id := m.event_id, item_id := commitItemId m,
        type := "conversation.item.input_audio_transcription.delta",
        transcript := some newTranscript }
    { responses := { st.responses with delta := some entry },
      transcript := newTranscript }
  else if m.type == some "conversation.item.input_audio_transcription.completed" then
    let entry : RespEntry :=
      { event_id := m.event_id, item_id := commitItemId m,
        type := "conversation.item.input_audio_transcription.completed",
        transcript := m.transcript }
    { st with responses := { st.responses with completed := some entry } }
  else st

/-- The commit collection loop: processes arrivals until all four required
types have been observed (`len(received_types) < 4` fails) or the arrivals
seen before the timeout are exhausted. -/
def commit_loop : CommitState → List InMsg → CommitState
  | st, [] => st
  | st, m :: rest =>
    if receivedCount st.responses ≥ 4 then st
    else commit_loop (commit_step st m) rest

/-- `send_audio_buffer_commit_and_validate`: `None` when not connected,
otherwise the collected responses dictionary — returned as-is even when the
timeout elapsed before all four required types arrived. -/
def send_audio_buffer_commit_and_validate (connected : Bool)
    (arrivals : List InMsg) : Option CommitResponses :=
  if !connected then none
  else some (commit_loop commitInit arrivals).responses

/-- Whether a message of type `t` occurs among the arrivals. -/
def typeOccurs (arrivals : List InMsg) (t : String) : Prop :=
  ∃ m ∈ arrivals, m.type = some t

instance (arrivals : List InMsg) (t : String) :
    Decidable (typeOccurs arrivals t) := by
  unfold typeOccurs; exact inferInstance

/-- The entry of the responses dictionary keyed by a required type. -/
def entryOf (r : CommitResponses) (t : String) : Option RespEntry :=
  if t = "input_audio_buffer.committed" then r.committed
  else if t = "conversation.item.created" then r.created
  else if t = "conversation.item.input_audio_transcription.delta" then r.delta
  else r.completed

/-- The four required terminal types of the commit operation. -/
def requiredTypes : List String :=
  ["input_audio_buffer.committed", "conversation.item.created",
   "conversation.item.input_audio_transcription.delta",
   "conversation.item.input_audio_transcription.completed"]

theorem entryOf_commit_step (st : CommitState) (m : InMsg) (t : String)
    (ht : t ∈ requiredTypes) :
    (entryOf (commit_step st m).responses t).isSome =
      ((entryOf st.responses t).isSome || (m.type == some t)) := by
  fin_cases ht <;>
    · simp only [commit_step, entryOf]
      by_cases h1 : m.type = some "input_audio_buffer.committed" <;>
        by_cases h2 : m.type = some "conversation.item.created" <;>
        by_cases h3 : m.type = some "conversation.item.input_audio_transcription.delta" <;>
        by_cases h4 : m.type = some "conversation.item.input_audio_transcription.completed" <;>
        simp_all

theorem entryOf_committed (r : CommitResponses) :
    entryOf r "input_audio_buffer.committed" = r.committed := rfl

theorem entryOf_created (r : CommitResponses) :
    entryOf r "conversation.item.created" = r.created := rfl

theorem entryOf_delta (r : CommitResponses) :
    entryOf r "conversation.item.input_audio_transcription.delta" =
      r.delta := rfl

theorem entryOf_completed (r : CommitResponses) :
    entryOf r "conversation.item.input_audio_transcription.completed" =
      r.completed := rfl

theorem receivedCount_lt_of_entry_none (r : CommitResponses) (t : String)
    (ht : t ∈ requiredTypes) (hnone : entryOf r t = none) :
    receivedCount r < 4 := by
  fin_cases ht
  · rw [entryOf_committed] at hnone
    simp [receivedCount, hnone]
    split_ifs <;> simp_all
  · rw [entryOf_created] at hnone
    simp [receivedCount, hnone]
    split_ifs <;> simp_all
  · rw [entryOf_delta] at hnone
    simp [receivedCount, hnone]
    split_ifs <;> simp_all
  · rw [entryOf_completed] at hnone
    simp [receivedCount, hnone]
    split_ifs <;> simp_all

/-- Main invariant for C4: when not every required type is either already
collected or still arriving, the loop never stops early, and an entry ends
populated exactly when it started populated or its type occurs among the
arrivals. -/
theorem commit_loop_entry_isSome :
    ∀ (arrivals : List InMsg) (st : CommitState),
      (∃ t0 ∈ requiredTypes, entryOf st.responses t0 = none ∧
        ¬ typeOccurs arrivals t0) →
      ∀ t ∈ requiredTypes,
        (entryOf (commit_loop st arrivals).responses t).isSome =
          ((entryOf st.responses t).isSome ||
            decide (typeOccurs arrivals t)) := by
  intro arrivals
  induction arrivals with
  | nil =>
    intro st _ t _
    simp [commit_loop, typeOccurs]
  | cons m rest ih =>
    intro st hmiss t ht
    obtain ⟨t0, ht0, hnone0, hnocc0⟩ := hmiss
    have hlt : receivedCount st.responses < 4 :=
      receivedCount_lt_of_entry_none st.responses t0 ht0 hnone0
    have hstep : commit_loop st (m :: rest) =
        commit_loop (commit_step st m) rest := by
      simp [commit_loop, Nat.not_le.mpr hlt]
    rw [hstep]
    have hm0 : m.type ≠ some t0 := fun h =>
      hnocc0 ⟨m, List.mem_cons_self m rest, h⟩
    have hmiss' : ∃ t1 ∈ requiredTypes,
        entryOf (commit_step st m).responses t1 = none ∧
        ¬ typeOccurs rest t1 := by
      refine ⟨t0, ht0, ?_, ?_⟩
      · have := entryOf_commit_step st m t0 ht0
        rw [hnone0] at this
        simp only [Option.isSome_none, Bool.false_or] at this
        have hb : (m.type == some t0) = false := by
          simp [hm0]
        rw [hb] at this
        exact Option.not_isSome_iff_eq_none.mp (by rw [this]; simp)
      · exact fun ⟨x, hx, hxt⟩ => hnocc0 ⟨x, List.mem_cons_of_mem m hx, hxt⟩
    rw [ih (commit_step st m) hmiss' t ht, entryOf_commit_step st m t ht]
    by_cases hmt : m.type = some t
    · simp [typeOccurs, hmt]
    · have hb : (m.type == some t) = false := by simp [hmt]
      have hocc : typeOccurs (m :: rest) t ↔ typeOccurs rest t := by
        constructor
        · rintro ⟨x, hx, hxt⟩
          rcases List.mem_cons.mp hx with rfl | hx'
          · exact absurd hxt hmt
          · exact ⟨x, hx', hxt⟩
        · rintro ⟨x, hx, hxt⟩
          exact ⟨x, List.mem_cons_of_mem m hx, hxt⟩
      simp [hb, hocc]

/-- C4. When the timeout elapses after a strict non-empty subset of the four
required terminal types has been observed, the commit operation still
returns a responses dictionary (not `None`): every observed type's entry is
populated, every missing type's entry is the empty initial one — so the
result carries exactly the collected subset and is distinguishable from a
complete result, in which all four entries are populated. -/
theorem c4_partial_commit_returns_subset (arrivals : List InMsg)
    (hsome : ∃ t ∈ requiredTypes, typeOccurs arrivals t)
    (hmiss : ∃ t ∈ requiredTypes, ¬ typeOccurs arrivals t) :
    ∃ r, send_audio_buffer_commit_and_validate true arrivals = some r ∧
      (∀ t ∈ requiredTypes,
        (entryOf r t).isSome = decide (typeOccurs arrivals t)) ∧
      (∃ t ∈ requiredTypes, (entryOf r t).isSome = true) ∧
      (∃ t ∈ requiredTypes, entryOf r t = none) := by
  obtain ⟨tm, htm, hnoccm⟩ := hmiss
  obtain ⟨ts, hts, hoccs⟩ := hsome
  have hinv := commit_loop_entry_isSome arrivals commitInit
    ⟨tm, htm, by fin_cases htm <;> simp [entryOf, commitInit], hnoccm⟩
  refine ⟨(commit_loop commitInit arrivals).responses, rfl, ?_, ?_, ?_⟩
  · intro t ht
    rw [hinv t ht]
    fin_cases ht <;> simp [entryOf, commitInit]
  · refine ⟨ts, hts, ?_⟩
    rw [hinv ts hts]
    have : decide (typeOccurs arrivals ts) = true := by
      exact decide_eq_true hoccs
    fin_cases hts <;> simp [entryOf, commitInit, this]
  · refine ⟨tm, htm, ?_⟩
    have h1 := hinv tm htm
    have : decide (typeOccurs arrivals tm) = false := by
      exact decide_eq_false hnoccm
    rw [this] at h1
    apply Option.not_isSome_iff_eq_none.mp
    rw [h1]
    fin_cases htm <;> simp [entryOf, commitInit]

/-- C4 witness: arrivals carrying three of the four required types
(committed, created, delta — no completed event) yield a result whose three
observed entries are populated and whose completed entry is empty. -/
theorem c4_witness :
    ∃ r, send_audio_buffer_commit_and_validate true
        [{ emptyMsg with type := some "input_audio_buffer.committed",
                         event_id := some "e1" },
         { emptyMsg with type := some "conversation.item.created",
                         event_id := some "e2" },
         { emptyMsg with
             type := some "conversation.item.input_audio_transcription.delta",
             event_id := some "e3", delta := some "hi" }] = some r ∧
      (∀ t ∈ requiredTypes, (entryOf r t).isSome =
        decide (typeOccurs
          [{ emptyMsg with type := some "input_audio_buffer.committed",
                           event_id := some "e1" },
           { emptyMsg with type := some "conversation.item.created",
                           event_id := some "e2" },
           { emptyMsg with
               type := some "conversation.item.input_audio_transcription.delta",
               event_id := some "e3", delta := some "hi" }] t)) ∧
      (∃ t ∈ requiredTypes, (entryOf r t).isSome = true) ∧
      (∃ t ∈ requiredTypes, entryOf r t = none) :=
  c4_partial_commit_returns_subset _
    ⟨"input_audio_buffer.committed", by decide, by decide⟩
    ⟨"conversation.item.input_audio_transcription.completed", by decide,
      by decide⟩

theorem commit_step_preserves_completed (st : CommitState) (x : InMsg)
    (hx : x.type ≠
      some "conversation.item.input_audio_transcription.completed") :
    (commit_step st x).responses.completed = st.responses.completed := by
  unfold commit_step
  have hb : (x.type ==
      some "conversation.item.input_audio_transcription.completed") =
      false := by simp [hx]
  by_cases h1 : x.type = some "input_audio_buffer.committed" <;>
    by_cases h2 : x.type = some "conversation.item.created" <;>
    by_cases h3 : x.type =
      some "conversation.item.input_audio_transcription.delta" <;>
    simp_all

theorem commit_loop_preserves_completed (post : List InMsg)
    (hpost : ∀ x ∈ post, x.type ≠
      some "conversation.item.input_audio_transcription.completed") :
    ∀ st : CommitState,
      (commit_loop st post).responses.completed = st.responses.completed := by
  induction post with
  | nil => intro st; rfl
  | cons p rest ih =>
    intro st
    by_cases hstop : receivedCount st.responses ≥ 4
    · simp [commit_loop, hstop]
    · have hp := hpost p (List.mem_cons_self p rest)
      have ihr := ih (fun x hx => hpost x (List.mem_cons_of_mem p hx))
        (commit_step st p)
      simp only [commit_loop, if_neg hstop]
      rw [ihr, commit_step_preserves_completed st p hp]

/-- C6. Whenever a commit run observes a single transcription-completed
event, the completed entry of the returned responses carries exactly that
event's `transcript` field — independent of whatever delta fragments were
accumulated before or after it. -/
theorem c6_final_transcript_from_completed_event (pre post : List InMsg)
    (m : InMsg)
    (htype : m.type =
      some "conversation.item.input_audio_transcription.completed")
    (hpre : ∀ x ∈ pre, x.type ≠
      some "conversation.item.input_audio_transcription.completed")
    (hpost : ∀ x ∈ post, x.type ≠
      some "conversation.item.input_audio_transcription.completed") :
    ∃ r, send_audio_buffer_commit_and_validate true (pre ++ m :: post) =
        some r ∧
      r.completed = some
        { event_id := m.event_id, item_id := commitItemId m,
          type := "conversation.item.input_audio_transcription.completed",
          transcript := m.transcript } := by
  refine ⟨(commit_loop commitInit (pre ++ m :: post)).responses, rfl, ?_⟩
  have hmain : ∀ (pre2 : List InMsg) (st : CommitState),
      (∀ x ∈ pre2, x.type ≠
        some "conversation.item.input_audio_transcription.completed") →
      st.responses.completed = none →
      (commit_loop st (pre2 ++ m :: post)).responses.completed = some
        { event_id := m.event_id, item_id := commitItemId m,
          type := "conversation.item.input_audio_transcription.completed",
          transcript := m.transcript } := by
    intro pre2
    induction pre2 with
    | nil =>
      intro st _ hnone
      have hlt : ¬ receivedCount st.responses ≥ 4 :=
        Nat.not_le.mpr (receivedCount_lt_of_entry_none st.responses
          "conversation.item.input_audio_transcription.completed"
          (by decide) ((entryOf_completed st.responses) ▸ hnone))
      simp only [List.nil_append, commit_loop, if_neg hlt]
      rw [commit_loop_preserves_completed post hpost]
      unfold commit_step
      have h1 : (m.type == some "input_audio_buffer.committed") = false := by
        simp [htype]
      have h2 : (m.type == some "conversation.item.created") = false := by
        simp [htype]
      have h3 : (m.type ==
          some "conversation.item.input_audio_transcription.delta") =
          false := by simp [htype]
      have h4 : (m.type ==
          some "conversation.item.input_audio_transcription.completed") =
          true := by simp [htype]
      simp [h1, h2, h3, h4]
    | cons p rest ih =>
      intro st hpre2 hnone
      have hlt : ¬ receivedCount st.responses ≥ 4 :=
        Nat.not_le.mpr (receivedCount_lt_of_entry_none st.responses
          "conversation.item.input_audio_transcription.completed"
          (by decide) ((entryOf_completed st.responses) ▸ hnone))
      simp only [List.cons_append, commit_loop, if_neg hlt]
      refine ih (commit_step st p)
        (fun x hx => hpre2 x (List.mem_cons_of_mem p hx)) ?_
      rw [commit_step_preserves_completed st p
        (hpre2 p (List.mem_cons_self p rest))]
      exact hnone
  exact hmain pre commitInit hpre rfl

/-- C6 witness: deltas "Hel" and "lo" arrive, then a completed event whose
transcript field is "Hello world!"; the completed entry reports
"Hello world!", not the delta concatenation "Hello". -/
theorem c6_witness :
    ∃ r, send_audio_buffer_commit_and_validate true
        [{ emptyMsg with
             type := some "conversation.item.input_audio_transcription.delta",
             delta := some "Hel" },
         { emptyMsg with
             type := some "conversation.item.input_audio_transcription.delta",
             delta := some "lo" },
         { emptyMsg with
             type :=
               some "conversation.item.input_audio_transcription.completed",
             event_id := some "e7",
             transcript := some "Hello world!" }] = some r ∧
      r.completed = some
        { event_id := some "e7", item_id := none,
          type := "conversation.item.input_audio_transcription.completed",
          transcript := some "Hello world!" } :=
  c6_final_transcript_from_completed_event
    [{ emptyMsg with
         type := some "conversation.item.input_audio_transcription.delta",
         delta := some "Hel" },
     { emptyMsg with
         type := some "conversation.item.input_audio_transcription.delta",
         delta := some "lo" }]
    []
    { emptyMsg with
        type := some "conversation.item.input_audio_transcription.completed",
        event_id := some "e7", transcript := some "Hello world!" }
    rfl (by decide) (by intro x hx; cases hx)

/-! ## Audio append (`send_audio_buffer_and_validate_speech_started`,
`openai_client.py` lines 319-400).  After sending the append request the
Python function contains no wait loop at all: it inspects the
latest-message slot exactly once.  To state the claim's quantification over
events arriving within a timeout, the embedding takes both the slot content
at the moment after the send and the list of messages that would arrive
later within the timeout; faithfully to the source, the latter cannot
influence the result. -/

/-- `send_audio_buffer_and_validate_speech_started`: fails when not
connected; otherwise succeeds iff the latest received message at the moment
after the send already is an `input_audio_buffer.speech_started` event with
truthy `event_id` and `item_id`.  `arrivalsAfterSend` — the events that
arrive after the single check but within the claim's timeout — is never
consulted, because the source performs no wait. -/
def send_audio_buffer_and_validate_speech_started (connected : Bool)
    (latestAtSend : Option InMsg) (arrivalsAfterSend : List InMsg) : Bool :=
  if !connected then false
  else
    match latestAtSend with
    | some m =>
      if m.type == some "input_audio_buffer.speech_started" then
        if !truthy m.event_id then false
        else if !truthy m.item_id then false
        else true
      else false
    | none => false

/-- A fully valid terminal event for the append operation. -/
def speechStartedMsg : InMsg :=
  { emptyMsg with type := some "input_audio_buffer.speech_started",
                  event_id := some "e3", item_id := some "i1" }

/-- C5 counterexample: on a connected session whose latest-message slot is
empty at the moment the append is sent, a perfectly valid
`speech_started` event arriving within the timeout still leaves the
operation failing — the claim's "succeeding whenever that event arrives
within the timeout (even if it was not already present at the moment the
request was sent)" is false of the code, which never waits. -/
theorem c5_counterexample :
    send_audio_buffer_and_validate_speech_started true none
      [speechStartedMsg] = false ∧
    speechStartedMsg.type = some "input_audio_buffer.speech_started" ∧
    truthy speechStartedMsg.event_id = true ∧
    truthy speechStartedMsg.item_id = true := by
  decide

/-- C5 (amended). On a connected session the append operation performs a
single immediate check rather than a wait: its outcome is independent of
every event that arrives after the send, and it succeeds exactly when the
latest received message at the moment after the send is already a
`speech_started` event carrying truthy `event_id` and `item_id`. -/
theorem c5_amended_single_check (connected : Bool) (latest : Option InMsg)
    (arr arr' : List InMsg) (hconn : connected = true) :
    send_audio_buffer_and_validate_speech_started connected latest arr =
      send_audio_buffer_and_validate_speech_started connected latest arr' ∧
    (send_audio_buffer_and_validate_speech_started connected latest arr =
        true ↔
      ∃ m, latest = some m ∧
        m.type = some "input_audio_buffer.speech_started" ∧
        truthy m.event_id = true ∧ truthy m.item_id = true) := by
  subst hconn
  refine ⟨rfl, ?_⟩
  cases latest with
  | none =>
    simp [send_audio_buffer_and_validate_speech_started]
  | some m =>
    by_cases ht : m.type = some "input_audio_buffer.speech_started"
    · by_cases hev : truthy m.event_id <;> by_cases hit : truthy m.item_id <;>
        simp [send_audio_buffer_and_validate_speech_started, ht, hev, hit]
    · have hb : (m.type == some "input_audio_buffer.speech_started") =
          false := by simp [ht]
      simp [send_audio_buffer_and_validate_speech_started, hb, ht]

/-- C5 witness: with the valid terminal event already in the slot, the
amended characterization yields success. -/
theorem c5_witness :
    send_audio_buffer_and_validate_speech_started true
      (some speechStartedMsg) [] = true :=
  (c5_amended_single_check true (some speechStartedMsg) [] [] rfl).2.mpr
    ⟨speechStartedMsg, rfl, rfl, by decide, by decide⟩

/-! ## Audio saving (`save_combined_audio_buffer`, `openai_client.py` lines
810-867).  After base64 decoding, the decoded byte string is written
unchanged when it already starts with the `RIFF` container magic; otherwise
a 44-byte WAV header for mono 16-bit PCM at the configured 44100 Hz sample
rate is prepended and the sample bytes follow unmodified.  Bytes are `Nat`
values (each < 256 in practice); `int.to_bytes(k, "little")` is `toLE k`. -/

/-- Little-endian byte serialization: `v.to_bytes(k, "little")`. -/
def toLE : Nat → Nat → List Nat
  | 0, _ => []
  | k + 1, v => v % 256 :: toLE k (v / 256)

/-- The header built byte-for-byte as the code's successive
`header.extend(...)` calls do, with `channels = 1`, `sample_rate = 44100`,
`bits_per_sample = 16`, for a payload of `dataSize` bytes. -/
def wavHeader (dataSize : Nat) : List Nat :=
  [82, 73, 70, 70] ++ toLE 4 (dataSize + 36) ++ [87, 65, 86, 69] ++
    [102, 109, 116, 32] ++ toLE 4 16 ++ toLE 2 1 ++ toLE 2 1 ++
    toLE 4 44100 ++ toLE 4 (44100 * 1 * 16 / 8) ++ toLE 2 (1 * 16 / 8) ++
    toLE 2 16 ++ [100, 97, 116, 97] ++ toLE 4 dataSize

/-- `audio_bytes.startswith(b"RIFF")`. -/
def startsWithRIFF (audio_bytes : List Nat) : Bool :=
  [82, 73, 70, 70].isPrefixOf audio_bytes

/-- The byte string written to disk by `save_combined_audio_buffer` as a
function of the decoded audio bytes. -/
def save_combined_audio_buffer (audio_bytes : List Nat) : List Nat :=
  if startsWithRIFF audio_bytes then audio_bytes
  else wavHeader audio_bytes.length ++ audio_bytes

theorem toLE_length (k v : Nat) : (toLE k v).length = k := by
  induction k generalizing v with
  | zero => rfl
  | succ n ih => simp [toLE, ih]

/-- The first 22 header bytes: RIFF magic, file size, WAVE and fmt tags,
fmt-chunk size, PCM format tag. -/
def wavA (n : Nat) : List Nat :=
  [82, 73, 70, 70] ++ toLE 4 (n + 36) ++
    [87, 65, 86, 69, 102, 109, 116, 32, 16, 0, 0, 0, 1, 0]

/-- The remaining 22 header bytes: channel count, sample rate, byte rate,
block align, bits per sample, data tag, data size. -/
def wavB (n : Nat) : List Nat :=
  [1, 0, 68, 172, 0, 0, 136, 88, 1, 0, 2, 0, 16, 0, 100, 97, 116, 97] ++
    toLE 4 n

theorem wavHeader_eq_AB (n : Nat) : wavHeader n = wavA n ++ wavB n := by
  simp [wavHeader, wavA, wavB, toLE]

theorem wavA_length (n : Nat) : (wavA n).length = 22 := by
  simp [wavA, toLE_length]

theorem wavHeader_length (n : Nat) : (wavHeader n).length = 44 := by
  simp [wavHeader, toLE_length]

/-- C9. A decoded audio byte string not starting with the `RIFF` magic is
written as a fixed 44-byte WAV header followed by the unmodified sample
bytes, and that header declares 1 channel (bytes 22-23), a 44100 Hz sample
rate (bytes 24-27), and 16 bits per sample (bytes 34-35), all
little-endian; a byte string already starting with `RIFF` is written
unchanged. -/
theorem c9_wav_wrapping (audio_bytes : List Nat) :
    (startsWithRIFF audio_bytes = false →
      save_combined_audio_buffer audio_bytes =
        wavHeader audio_bytes.length ++ audio_bytes ∧
      (save_combined_audio_buffer audio_bytes).take 4 = [82, 73, 70, 70] ∧
      ((save_combined_audio_buffer audio_bytes).drop 22).take 2 = [1, 0] ∧
      ((save_combined_audio_buffer audio_bytes).drop 24).take 4 =
        [68, 172, 0, 0] ∧
      ((save_combined_audio_buffer audio_bytes).drop 34).take 2 = [16, 0] ∧
      (save_combined_audio_buffer audio_bytes).drop 44 = audio_bytes) ∧
    (startsWithRIFF audio_bytes = true →
      save_combined_audio_buffer audio_bytes = audio_bytes) := by
  constructor
  · intro hno
    have heq : save_combined_audio_buffer audio_bytes =
        wavHeader audio_bytes.length ++ audio_bytes := by
      simp [save_combined_audio_buffer, hno]
    have hsplit : save_combined_audio_buffer audio_bytes =
        wavA audio_bytes.length ++ (wavB audio_bytes.length ++ audio_bytes) := by
      rw [heq, wavHeader_eq_AB, List.append_assoc]
    have hdrop22 : (save_combined_audio_buffer audio_bytes).drop 22 =
        wavB audio_bytes.length ++ audio_bytes := by
      rw [hsplit, List.drop_left' (wavA_length audio_bytes.length)]
    refine ⟨heq, ?_, ?_, ?_, ?_, ?_⟩
    · rw [hsplit]
      simp [wavA]
    · rw [hdrop22]
      simp [wavB]
    · rw [show (24 : Nat) = 22 + 2 from rfl, ← List.drop_drop, hdrop22]
      simp [wavB]
    · rw [show (34 : Nat) = 22 + 12 from rfl, ← List.drop_drop, hdrop22]
      simp [wavB]
    · rw [heq]
      have h44 : (44 : Nat) = (wavHeader audio_bytes.length).length :=
        (wavHeader_length audio_bytes.length).symm
      rw [h44, List.drop_left]
  · intro hyes
    simp [save_combined_audio_buffer, hyes]

/-- C9 witness: the two-byte raw PCM payload `[0, 1]` has no RIFF magic and
gets the full header treatment; the four bytes `RIFF` themselves are
written unchanged. -/
theorem c9_witness :
    save_combined_audio_buffer [0, 1] =
      wavHeader 2 ++ [0, 1] ∧
    ((save_combined_audio_buffer [0, 1]).drop 24).take 4 =
      [68, 172, 0, 0] ∧
    (save_combined_audio_buffer [0, 1]).drop 44 = [0, 1] ∧
    save_combined_audio_buffer [82, 73, 70, 70] = [82, 73, 70, 70] := by
  have h1 := (c9_wav_wrapping [0, 1]).1 (by decide)
  have h2 := (c9_wav_wrapping [82, 73, 70, 70]).2 (by decide)
  exact ⟨h1.1, h1.2.2.2.1, h1.2.2.2.2.2, h2⟩

/-! ## Base64 text transcoding (`text_to_wav.py` lines 6-47).
Text is modelled at the UTF-8 byte level (a `List Nat` of byte values), on
which Python's `.encode("utf-8")` / `.decode("utf-8")` are the identity for
the valid strings the claim quantifies over.  The standard-library
`base64.b64encode` / `b64decode` pair (an external collaborator in the
spec's terms) is embedded as RFC 4648 encoding over byte lists, with
decoding returning `none` on the malformed-padding inputs on which Python
raises.  The `.endswith(".txt")` file-path branch of both functions reads a
file; that external read is a `readFile` oracle parameter. -/

/-- The base64 alphabet: sextet value to ASCII code. -/
def b64CharOfSextet (n : Nat) : Nat :=
  if n < 26 then 65 + n
  else if n < 52 then 97 + (n - 26)
  else if n < 62 then 48 + (n - 52)
  else if n = 62 then 43
  else 47

/-- ASCII code back to sextet value (on alphabet characters). -/
def sextetOfB64Char (c : Nat) : Nat :=
  if 65 ≤ c ∧ c ≤ 90 then c - 65
  else if 97 ≤ c ∧ c ≤ 122 then c - 97 + 26
  else if 48 ≤ c ∧ c ≤ 57 then c - 48 + 52
  else if c = 43 then 62
  else 63

/-- `base64.b64encode` on bytes: three input bytes per four alphabet
characters, with `=` (code 61) padding for a 1- or 2-byte tail. -/
def b64encodeBytes : List Nat → List Nat
  | [] => []
  | [a] =>
    [b64CharOfSextet (a / 4), b64CharOfSextet (a % 4 * 16), 61, 61]
  | [a, b] =>
    [b64CharOfSextet (a / 4), b64CharOfSextet (a % 4 * 16 + b / 16),
     b64CharOfSextet (b % 16 * 4), 61]
  | a :: b :: c :: rest =>
    b64CharOfSextet (a / 4) :: b64CharOfSextet (a % 4 * 16 + b / 16) ::
      b64CharOfSextet (b % 16 * 4 + c / 64) :: b64CharOfSextet (c % 64) ::
      b64encodeBytes rest

/-- `base64.b64decode`: four characters per three output bytes, with the
`=`-padded final group producing one or two bytes; `none` on inputs whose
length is not a multiple of four (Python raises `binascii.Error`). -/
def b64decodeBytes : List Nat → Option (List Nat)
  | [] => some []
  | c1 :: c2 :: c3 :: c4 :: rest =>
    if c3 = 61 then
      if rest = [] ∧ c4 = 61 then
        some [sextetOfB64Char c1 * 4 + sextetOfB64Char c2 / 16]
      else none
    else if c4 = 61 then
      if rest = [] then
        some [sextetOfB64Char c1 * 4 + sextetOfB64Char c2 / 16,
              sextetOfB64Char c2 % 16 * 16 + sextetOfB64Char c3 / 4]
      else none
    else
      (b64decodeBytes rest).map fun t =>
        (sextetOfB64Char c1 * 4 + sextetOfB64Char c2 / 16) ::
          (sextetOfB64Char c2 % 16 * 16 + sextetOfB64Char c3 / 4) ::
          (sextetOfB64Char c3 % 4 * 64 + sextetOfB64Char c4) :: t
  | _ => none

theorem sextet_of_char (n : Nat) (h : n < 64) :
    sextetOfB64Char (b64CharOfSextet n) = n := by
  unfold b64CharOfSextet sextetOfB64Char
  split_ifs <;> omega

theorem b64Char_ne_61 (n : Nat) : b64CharOfSextet n ≠ 61 := by
  unfold b64CharOfSextet
  split_ifs <;> omega

theorem b64Char_ne_46 (n : Nat) : b64CharOfSextet n ≠ 46 := by
  unfold b64CharOfSextet
  split_ifs <;> omega

theorem b64_roundtrip_aux (k : Nat) :
    ∀ l : List Nat, l.length ≤ k → (∀ x ∈ l, x < 256) →
      b64decodeBytes (b64encodeBytes l) = some l := by
  induction k with
  | zero =>
    intro l hl _
    match l with
    | [] => rfl
    | x :: xs => simp at hl
  | succ n ih =>
    intro l hl hb
    match l with
    | [] => rfl
    | [a] =>
      have ha : a < 256 := hb a (by simp)
      have h1 : sextetOfB64Char (b64CharOfSextet (a / 4)) = a / 4 :=
        sextet_of_char _ (by omega)
      have h2 : sextetOfB64Char (b64CharOfSextet (a % 4 * 16)) =
          a % 4 * 16 := sextet_of_char _ (by omega)
      simp [b64encodeBytes, b64decodeBytes, h1, h2]
      omega
    | [a, b] =>
      have ha : a < 256 := hb a (by simp)
      have hbb : b < 256 := hb b (by simp)
      have h1 : sextetOfB64Char (b64CharOfSextet (a / 4)) = a / 4 :=
        sextet_of_char _ (by omega)
      have h2 : sextetOfB64Char (b64CharOfSextet (a % 4 * 16 + b / 16)) =
          a % 4 * 16 + b / 16 := sextet_of_char _ (by omega)
      have h3 : sextetOfB64Char (b64CharOfSextet (b % 16 * 4)) =
          b % 16 * 4 := sextet_of_char _ (by omega)
      simp [b64encodeBytes, b64decodeBytes, b64Char_ne_61, h1, h2, h3]
      omega
    | a :: b :: c :: rest =>
      have ha : a < 256 := hb a (by simp)
      have hbb : b < 256 := hb b (by simp)
      have hc : c < 256 := hb c (by simp)
      have hrest : b64decodeBytes (b64encodeBytes rest) = some rest := by
        refine ih rest ?_ fun x hx => hb x (by simp [hx])
        simp only [List.length_cons] at hl
        omega
      have h1 : sextetOfB64Char (b64CharOfSextet (a / 4)) = a / 4 :=
        sextet_of_char _ (by omega)
      have h2 : sextetOfB64Char (b64CharOfSextet (a % 4 * 16 + b / 16)) =
          a % 4 * 16 + b / 16 := sextet_of_char _ (by omega)
      have h3 : sextetOfB64Char (b64CharOfSextet (b % 16 * 4 + c / 64)) =
          b % 16 * 4 + c / 64 := sextet_of_char _ (by omega)
      have h4 : sextetOfB64Char (b64CharOfSextet (c % 64)) = c % 64 :=
        sextet_of_char _ (by omega)
      simp [b64encodeBytes, b64decodeBytes, b64Char_ne_61, hrest,
        h1, h2, h3, h4]
      omega

theorem b64_roundtrip (l : List Nat) (hb : ∀ x ∈ l, x < 256) :
    b64decodeBytes (b64encodeBytes l) = some l :=
  b64_roundtrip_aux l.length l (Nat.le_refl _) hb

/-- `s.endswith(".txt")` on UTF-8 bytes: suffix `[46, 116, 120, 116]`. -/
def endsWithTxt (l : List Nat) : Bool :=
  [46, 116, 120, 116].isSuffixOf l

theorem not_mem_46_encode (k : Nat) :
    ∀ l : List Nat, l.length ≤ k → (46 : Nat) ∉ b64encodeBytes l := by
  induction k with
  | zero =>
    intro l hl
    match l with
    | [] => simp [b64encodeBytes]
    | x :: xs => simp at hl
  | succ n ih =>
    intro l hl
    match l with
    | [] => simp [b64encodeBytes]
    | [a] =>
      simp [b64encodeBytes]
      exact ⟨fun h => b64Char_ne_46 _ h.symm, fun h => b64Char_ne_46 _ h.symm⟩
    | [a, b] =>
      simp [b64encodeBytes]
      exact ⟨fun h => b64Char_ne_46 _ h.symm, fun h => b64Char_ne_46 _ h.symm,
        fun h => b64Char_ne_46 _ h.symm⟩
    | a :: b :: c :: rest =>
      have hrest : (46 : Nat) ∉ b64encodeBytes rest := by
        refine ih rest ?_
        simp only [List.length_cons] at hl
        omega
      simp [b64encodeBytes]
      exact ⟨fun h => b64Char_ne_46 _ h.symm, fun h => b64Char_ne_46 _ h.symm,
        fun h => b64Char_ne_46 _ h.symm, fun h => b64Char_ne_46 _ h.symm,
        hrest⟩

theorem encode_not_endsWithTxt (l : List Nat) :
    endsWithTxt (b64encodeBytes l) = false := by
  unfold endsWithTxt
  by_contra h
  have hsuf : [46, 116, 120, 116] <:+ b64encodeBytes l := by
    have := Bool.of_not_eq_false h
    exact List.isSuffixOf_iff_suffix.mp this
  have h46 : (46 : Nat) ∈ b64encodeBytes l := hsuf.subset (by simp)
  exact not_mem_46_encode l.length l (Nat.le_refl _) h46

/-- `text_to_base64` (`text_to_wav.py` lines 27-47): a `.txt` input is
replaced by the file's content via the `readFile` oracle, then the UTF-8
bytes are base64 encoded. -/
def text_to_base64 (readFile : List Nat → List Nat) (t : List Nat) :
    List Nat :=
  let input := if endsWithTxt t then readFile t else t
  b64encodeBytes input

/-- `base64_to_text` (`text_to_wav.py` lines 6-25): a `.txt` input is
replaced by the file's content via the `readFile` oracle, then base64
decoded and UTF-8 decoded; the caught-exception error-string return is
`none`. -/
def base64_to_text (readFile : List Nat → List Nat) (input : List Nat) :
    Option (List Nat) :=
  let inp := if endsWithTxt input then readFile input else input
  b64decodeBytes inp

/-- C10. For every UTF-8 byte string that does not end with ".txt",
decoding the encoding round-trips: `base64_to_text (text_to_base64 t)`
recovers `t` (the encoder output never ends with ".txt", since `.` is not
in the base64 alphabet, so neither call takes the file branch). -/
theorem c10_base64_roundtrip (readFile : List Nat → List Nat)
    (t : List Nat) (hb : ∀ x ∈ t, x < 256)
    (ht : endsWithTxt t = false) :
    base64_to_text readFile (text_to_base64 readFile t) = some t := by
  unfold text_to_base64 base64_to_text
  simp only [ht, Bool.false_eq_true, if_false, encode_not_endsWithTxt]
  exact b64_roundtrip t hb

/-- C10 witness: the bytes of "Hello" round-trip through the encoder and
decoder. -/
theorem c10_witness :
    base64_to_text (fun _ => [])
      (text_to_base64 (fun _ => []) [72, 101, 108, 108, 111]) =
      some [72, 101, 108, 108, 111] :=
  c10_base64_roundtrip (fun _ => []) [72, 101, 108, 108, 111]
    (by decide) (by decide)

end OART
